import Mathlib

/-!
Shallow embedding of the repository-local logic of
`GOT/demo/run_ocr_2.0.py` (function `eval_model`): bounding-box
coordinate normalization, prompt construction, output stop-stripping,
and the three post-processing render branches, together with theorems
settling the frozen claims about that code.

Python strings are modelled as `List Char`; Python string methods
(`count`, `replace`, `split`, `strip`, `in`, `endswith`) are embedded
as executable functions with the same non-overlapping left-to-right
scan semantics.  Python float arithmetic `int(x / w * 1000)` is
modelled exactly as truncation-toward-zero of the rational
`x * 1000 / w` (`Int.tdiv`).  Python exceptions are modelled with
`Except PyErr`.
-/

/-- Exceptions the modelled code can raise. -/
inductive PyErr where
  | zeroDivisionError
  | indexError
  | ioError
  | externalError
  deriving DecidableEq

/-- Characters of a string literal. -/
def S (s : String) : List Char := s.data

/-- Python substring test `pat in s`. -/
def pySub (pat : List Char) : List Char → Bool
  | [] => pat.isPrefixOf []
  | c :: cs => pat.isPrefixOf (c :: cs) || pySub pat cs

/-- Fuel-driven worker for `pyReplace`; fuel at least the length of the
subject string makes the fuel irrelevant (each step consumes at least
one character). -/
def replaceFuel (pat rep : List Char) : Nat → List Char → List Char
  | _, [] => []
  | 0, s => s
  | f + 1, c :: cs =>
    if pat ≠ [] ∧ pat.isPrefixOf (c :: cs) then
      rep ++ replaceFuel pat rep f ((c :: cs).drop pat.length)
    else
      c :: replaceFuel pat rep f cs

/-- Python `s.replace(pat, rep)`: replace all non-overlapping
occurrences left to right.  (All call sites in the source use a
non-empty `pat`; an empty `pat` is treated as no occurrence.) -/
def pyReplace (pat rep s : List Char) : List Char := replaceFuel pat rep s.length s

/-- Fuel-driven worker for `pyCount`. -/
def countFuel (pat : List Char) : Nat → List Char → Nat
  | _, [] => 0
  | 0, _ => 0
  | f + 1, c :: cs =>
    if pat ≠ [] ∧ pat.isPrefixOf (c :: cs) then
      1 + countFuel pat f ((c :: cs).drop pat.length)
    else
      countFuel pat f cs

/-- Python `s.count(pat)`: number of non-overlapping occurrences,
scanned left to right.  (All call sites use a non-empty `pat`.) -/
def pyCount (pat s : List Char) : Nat := countFuel pat s.length s

/-- Fuel-driven worker for `pySplit`. -/
def splitFuel (sep : List Char) : Nat → List Char → List (List Char)
  | _, [] => [[]]
  | 0, s => [s]
  | f + 1, c :: cs =>
    if sep ≠ [] ∧ sep.isPrefixOf (c :: cs) then
      [] :: splitFuel sep f ((c :: cs).drop sep.length)
    else
      match splitFuel sep f cs with
      | [] => [[c]]
      | r :: rs => (c :: r) :: rs

/-- Python `s.split(sep)` for a non-empty separator. -/
def pySplit (sep s : List Char) : List (List Char) := splitFuel sep s.length s

/-- Python ASCII whitespace, as stripped by `str.strip()` (the claims
only involve ASCII text, so the additional Unicode whitespace that
Python also strips is not modelled). -/
def pyWhitespace (c : Char) : Bool :=
  c = ' ' || c = '\t' || c = '\n' || c = '\r' || c = '\x0b' || c = '\x0c'

/-- Python `s.strip()`. -/
def pyStrip (s : List Char) : List Char :=
  ((s.dropWhile pyWhitespace).reverse.dropWhile pyWhitespace).reverse

/-- Python `s[:-n]` for `n ≥ 0`: note `s[:-0]` is `s[:0] = ""`. -/
def pyCutEnd (n : Nat) (s : List Char) : List Char :=
  if n = 0 then [] else s.take (s.length - n)

/-- Python `str(list_of_ints)`, e.g. `"[100, 100, 200, 200]"`. -/
def pyStrIntList (l : List Int) : String :=
  "[" ++ String.intercalate ", " (l.map toString) ++ "]"

/-- `int(x / d * 1000)` from lines 74-80: raises `ZeroDivisionError`
when the image dimension `d` is zero, otherwise truncates the exact
ratio toward zero (Python `int()` on the float result). -/
def scaleCoord (x d : Int) : Except PyErr Int :=
  if d = 0 then Except.error PyErr.zeroDivisionError
  else Except.ok (Int.tdiv (x * 1000) d)

/-- Lines 72-80: after `bbox = eval(args.box)`, a 2-element box has
both coordinates scaled (x by width, y by height), a 4-element box has
all four scaled; any other length falls through both `if len(bbox)`
tests with no change and no error. -/
def normalizeBox (bbox : List Int) (w h : Int) : Except PyErr (List Int) :=
  match bbox with
  | [x, y] =>
    match scaleCoord x w with
    | Except.error e => Except.error e
    | Except.ok a =>
      match scaleCoord y h with
      | Except.error e => Except.error e
      | Except.ok b => Except.ok [a, b]
  | [x1, y1, x2, y2] =>
    match scaleCoord x1 w with
    | Except.error e => Except.error e
    | Except.ok a =>
      match scaleCoord y1 h with
      | Except.error e => Except.error e
      | Except.ok b =>
        match scaleCoord x2 w with
        | Except.error e => Except.error e
        | Except.ok c =>
          match scaleCoord y2 h with
          | Except.error e => Except.error e
          | Except.ok d => Except.ok [a, b, c, d]
  | other => Except.ok other

/-- Lines 66-69: the base instruction chosen from `args.type`. -/
def baseInstr (tt : String) : String :=
  if tt = "format" then "OCR with format: " else "OCR: "

/-- Lines 66-90: the instruction string `qs` before the image-token
wrapping.  `box?` is the parsed `eval(args.box)` value when `args.box`
is non-empty (`none` when empty/absent), likewise `color?` for
`args.color`.  The source first (maybe) rebuilds `qs` from the box,
then — in a separate, unconditional `if` — rebuilds it again from the
color, discarding any box prefix. -/
def buildQs (tt : String) (box? : Option (List Int)) (color? : Option String)
    (w h : Int) : Except PyErr String :=
  match box? with
  | none =>
    match color? with
    | none => Except.ok (baseInstr tt)
    | some c => Except.ok ("[" ++ c ++ "] " ++ baseInstr tt)
  | some b =>
    match normalizeBox b w h with
    | Except.error e => Except.error e
    | Except.ok nb =>
      match color? with
      | none => Except.ok (pyStrIntList nb ++ " " ++ baseInstr tt)
      | some c => Except.ok ("[" ++ c ++ "] " ++ baseInstr tt)

/-- Lines 134-137: decode, `strip()`, drop the stop suffix when present
(`outputs[:-len(stop_str)]`), `strip()` again.  `decoded` is the raw
decoded generation. -/
def stripStop (decoded stop : List Char) : List Char :=
  let o1 := pyStrip decoded
  let o2 := if stop.isSuffixOf o1 then pyCutEnd stop.length o1 else o1
  pyStrip o2

/-- The `"\begin{tikzpicture}"` marker (line 168/206). -/
def tikzBeginL : List Char := S "\\begin\x7btikzpicture\x7d"

/-- The `"\end{tikzpicture}"` marker (line 207). -/
def tikzEndL : List Char := S "\\end\x7btikzpicture\x7d"

/-- The `"const text ="` template marker (lines 191/223). -/
def markerL : List Char := S "const text ="

/-- Lines 209-212: the trailing-space `while` loop, on the reversed
line.  Each iteration evaluates `out[-1]`, which raises `IndexError`
on an empty string; the source's `if out is None: break` guard is dead
(a string emptied by slicing is `""`, never `None`), so the loop has no
working empty-string exit and is modelled by erroring at `[]`. -/
def wsLoopRev : List Char → Except PyErr (List Char)
  | [] => Except.error PyErr.indexError
  | c :: cs => if c = ' ' then wsLoopRev cs else Except.ok (c :: cs)

/-- Lines 209-212 on the line itself: strip trailing `' '` characters,
raising `IndexError` if the line runs out of characters. -/
def stripTrailLoop (s : List Char) : Except PyErr (List Char) :=
  (wsLoopRev s.reverse).map List.reverse

/-- Declarative trailing-space strip (the intended effect of lines
209-212): remove the longest suffix of `' '` characters. -/
def rstripSpec (s : List Char) : List Char :=
  (s.reverse.dropWhile (fun c => c == ' ')).reverse

/-- Lines 204-219: the contribution of one (already split) line to the
diagram `gt` accumulator — empty lines contribute nothing, tikzpicture
begin/end marker lines pass through with a newline, all others go
through the trailing-space loop and the `";"` termination branch
(`gt += out[:-1] + ";\n"` when the last character is not `";"`, else
`gt += out + "\n"`). -/
def processTikzLine (out : List Char) : Except PyErr (List Char) :=
  if out = [] then Except.ok []
  else if pySub tikzBeginL out = false ∧ pySub tikzEndL out = false then
    match stripTrailLoop out with
    | Except.error e => Except.error e
    | Except.ok s =>
      if s = [] then Except.ok []
      else if s.getLast? ≠ some ';' then Except.ok (s.dropLast ++ S ";\n")
      else Except.ok (s ++ S "\n")
  else Except.ok (out ++ S "\n")

/-- Lines 201-219: split the (punctuation-translated) text on `"\n"`
and concatenate the processed lines. -/
def tikzGt (translated : List Char) : Except PyErr (List Char) :=
  (pySplit (S "\n") translated).foldlM
    (fun acc out =>
      match processTikzLine out with
      | Except.ok piece => Except.ok (acc ++ piece)
      | Except.error e => Except.error e)
    []

/-- Lines 221-224: the tikz-branch template splice
`lines[0] + gt + lines[1]` — the `"const text ="` marker is not
re-inserted.  A template without the marker raises `IndexError` at
`lines[1]`. -/
def tikzSplice (template gt : List Char) : Except PyErr (List Char) :=
  match pySplit markerL template with
  | p0 :: p1 :: _ => Except.ok (p0 ++ gt ++ p1)
  | _ => Except.error PyErr.indexError

/-- Lines 189-192: the structured-markup-branch template splice
`lines[0] + "const text =" + gt + lines[1]` — here the marker is
re-inserted. -/
def mmdSplice (template gt : List Char) : Except PyErr (List Char) :=
  match pySplit markerL template with
  | p0 :: p1 :: _ => Except.ok (p0 ++ markerL ++ gt ++ p1)
  | _ => Except.error PyErr.indexError

/-- Lines 171-179: count `"\left"`/`"\right"` occurrences and, only
when the counts differ, strip the paired delimiter macros down to bare
delimiters (ten chained `replace` calls, in source order). -/
def balanceRepair (s : List Char) : List Char :=
  if pyCount (S "\\right") s ≠ pyCount (S "\\left") s then
    pyReplace (S "\\right.") (S ".")
      (pyReplace (S "\\left.") (S ".")
        (pyReplace (S "\\right|") (S "|")
          (pyReplace (S "\\left|") (S "|")
            (pyReplace (S "\\right\x7d") (S "\x7d")
              (pyReplace (S "\\left\x7b") (S "\x7b")
                (pyReplace (S "\\right]") (S "]")
                  (pyReplace (S "\\left[") (S "[")
                    (pyReplace (S "\\right)") (S ")")
                      (pyReplace (S "\\left(") (S "(") s)))))))))
  else s

/-- Line 181: `outputs.replace('"', "``").replace("$", "")`. -/
def quoteDollarClean (s : List Char) : List Char :=
  pyReplace (S "$") [] (pyReplace (S "\"") (S "``") s)

/-- Lines 171-181 combined: the structured-markup text cleanup. -/
def mmdClean (s : List Char) : List Char := quoteDollarClean (balanceRepair s)

/-- Line 186: one line of the JS string-literal expression —
`'"' + out.replace("\\", "\\\\") + r"\n" + '"' + "+" + "\n"`. -/
def jsLine (out : List Char) : List Char :=
  S "\"" ++ pyReplace (S "\\") (S "\\\\") out ++ S "\\n" ++ S "\"" ++ S "+" ++ S "\n"

/-- Lines 183-187: split on `"\n"`, build the `"+"`-joined quoted
string literals, and drop the final `"+\n"` (`gt = gt[:-2]`). -/
def mmdGt (s : List Char) : List Char :=
  pyCutEnd 2 ((pySplit (S "\n") s).foldl (fun acc o => acc ++ jsLine o) [])

/-- Observable side effects of the post-generation code (file writes,
console output, the external music-notation HTML emission). -/
inductive Effect where
  | fileWrite (path : String) (content : List Char)
  | consolePrint (msg : List Char)
  | musicHtml (path : String) (svg : List Char)
  deriving DecidableEq

/-- External collaborators of the render branches: the two HTML
template files read from disk (lines 189/221), the verovio SVG
rendering (lines 150-163), and the punctuation translation table
`outputs.translate(translation_table)` (line 200; the table comes from
`GOT.demo.process_results.punctuation_dict`, which is outside the
analysed file, so it is kept as an abstract character-level
translation). -/
structure RenderEnv where
  mmdTemplate : Except PyErr (List Char)
  tikzTemplate : Except PyErr (List Char)
  musicSvg : Except PyErr (List Char)
  translate : List Char → List Char

/-- Line 164: `svg.replace('overflow="inherit"', 'overflow="visible"')`. -/
def svgPatch (svg : List Char) : List Char :=
  pyReplace (S "overflow=\"inherit\"") (S "overflow=\"visible\"") svg

/-- Lines 144-165: the `"**kern"` music-notation branch; effects
emitted paired with the exception aborting the run, if any. -/
def musicPart (outs : List Char) (env : RenderEnv) : List Effect × Option PyErr :=
  if pySub (S "**kern") outs then
    match env.musicSvg with
    | Except.error e => ([], some e)
    | Except.ok svg => ([Effect.musicHtml "./results/demo.html" (svgPatch svg)], none)
  else ([], none)

/-- Lines 167-227: the `args.type == "format"` branch, dispatching on
the tikzpicture marker.  In the tikz branch the `gt` loop (which can
raise `IndexError`) runs before the template file is opened; in both
branches the HTML write is the last step. -/
def formatPart (tt : String) (outs : List Char) (env : RenderEnv) :
    List Effect × Option PyErr :=
  if tt = "format" ∧ pySub (S "**kern") outs = false then
    if pySub tikzBeginL outs = false then
      match env.mmdTemplate with
      | Except.error e => ([], some e)
      | Except.ok t =>
        match mmdSplice t (mmdGt (mmdClean outs)) with
        | Except.error e => ([], some e)
        | Except.ok new => ([Effect.fileWrite "./results/demo.html" new], none)
    else
      match tikzGt (env.translate outs) with
      | Except.error e => ([], some e)
      | Except.ok g =>
        match env.tikzTemplate with
        | Except.error e => ([], some e)
        | Except.ok t =>
          match tikzSplice t g with
          | Except.error e => ([], some e)
          | Except.ok new => ([Effect.fileWrite "./results/demo.html" new], none)
  else ([], none)

/-- Lines 142-227: the whole `if args.render:` block — the banner
print, then the music branch, then the format branch; an exception in
the music branch aborts before the format branch runs. -/
def renderStep (tt : String) (outs : List Char) (env : RenderEnv) :
    List Effect × Option PyErr :=
  let banner := Effect.consolePrint (S "==============rendering===============")
  let m := musicPart outs env
  match m.2 with
  | some e => (banner :: m.1, some e)
  | none =>
    let f := formatPart tt outs env
    (banner :: (m.1 ++ f.1), f.2)

/-- Lines 134-227: the post-generation effect trace.  The stripped
text is written to `ocr_output.txt` (lines 139-140) and only then, when
`args.render` is set, the render block runs; the second component is
the exception aborting the run, if any. -/
def evalTrace (render : Bool) (tt : String) (decoded stop : List Char)
    (env : RenderEnv) : List Effect × Option PyErr :=
  let outs := stripStop decoded stop
  let w0 := Effect.fileWrite "ocr_output.txt" outs
  if render then
    let r := renderStep tt outs env
    (w0 :: r.1, r.2)
  else ([w0], none)

/-- A concrete render environment used for witness instantiations. -/
def envDemo : RenderEnv :=
  { mmdTemplate := Except.ok (S "A const text =B")
    tikzTemplate := Except.ok (S "A const text =B")
    musicSvg := Except.ok []
    translate := id }

/-! ## Helper lemmas -/

theorem scaleCoord_ok (x d : Int) (hd : d ≠ 0) :
    scaleCoord x d = Except.ok (Int.tdiv (x * 1000) d) := by
  simp [scaleCoord, hd]

theorem tdiv_scale_nonneg (x d : Int) (hd : 0 < d) (h0 : 0 ≤ x) :
    0 ≤ Int.tdiv (x * 1000) d :=
  Int.tdiv_nonneg (mul_nonneg h0 (by norm_num)) (le_of_lt hd)

theorem tdiv_scale_le (x d : Int) (hd : 0 < d) (h1 : x ≤ d) (h0 : 0 ≤ x) :
    Int.tdiv (x * 1000) d ≤ 1000 := by
  have hnum : (0 : Int) ≤ x * 1000 := mul_nonneg h0 (by norm_num)
  rw [Int.tdiv_eq_ediv hnum (le_of_lt hd)]
  have h2 : x * 1000 ≤ 1000 * d := by nlinarith
  calc x * 1000 / d ≤ (1000 * d) / d := Int.ediv_le_ediv hd h2
    _ = 1000 := Int.mul_ediv_cancel 1000 (ne_of_gt hd)

theorem normalizeBox_other (b : List Int) (w h : Int)
    (h2 : b.length ≠ 2) (h4 : b.length ≠ 4) :
    normalizeBox b w h = Except.ok b := by
  rcases b with _ | ⟨a, _ | ⟨b1, _ | ⟨c, _ | ⟨d, _ | ⟨e, rest⟩⟩⟩⟩⟩
  · rfl
  · rfl
  · simp at h2
  · rfl
  · simp at h4
  · rfl

theorem normalizeBox_exists_ok (b : List Int) (w h : Int)
    (hw : w ≠ 0) (hh : h ≠ 0) :
    ∃ nb, normalizeBox b w h = Except.ok nb := by
  rcases b with _ | ⟨a, _ | ⟨b1, _ | ⟨c, _ | ⟨d, _ | ⟨e, rest⟩⟩⟩⟩⟩
  · exact ⟨[], rfl⟩
  · exact ⟨[a], rfl⟩
  · exact ⟨[Int.tdiv (a * 1000) w, Int.tdiv (b1 * 1000) h], by
      simp [normalizeBox, scaleCoord, hw, hh]⟩
  · exact ⟨[a, b1, c], rfl⟩
  · exact ⟨[Int.tdiv (a * 1000) w, Int.tdiv (b1 * 1000) h,
      Int.tdiv (c * 1000) w, Int.tdiv (d * 1000) h], by
      simp [normalizeBox, scaleCoord, hw, hh]⟩
  · exact ⟨a :: b1 :: c :: d :: e :: rest, rfl⟩

theorem wsLoopRev_ok (s : List Char) (hs : ∃ c ∈ s, c ≠ ' ') :
    wsLoopRev s = Except.ok (s.dropWhile (fun c => c == ' ')) := by
  induction s with
  | nil => simp at hs
  | cons c cs ih =>
    by_cases hc : c = ' '
    · subst hc
      have hcs : ∃ d ∈ cs, d ≠ ' ' := by
        rcases hs with ⟨d, hd, hne⟩
        rcases List.mem_cons.mp hd with rfl | hd'
        · exact absurd rfl hne
        · exact ⟨d, hd', hne⟩
      rw [wsLoopRev, if_pos rfl, ih hcs]
      simp [List.dropWhile]
    · have hb : (c == ' ') = false := by simp [hc]
      rw [wsLoopRev, if_neg hc]
      simp [List.dropWhile, hb]

theorem stripTrailLoop_ok (s : List Char) (hs : ∃ c ∈ s, c ≠ ' ') :
    stripTrailLoop s = Except.ok (rstripSpec s) := by
  unfold stripTrailLoop rstripSpec
  rw [wsLoopRev_ok s.reverse (by simpa using hs)]
  rfl

theorem rstripSpec_ne_nil (s : List Char) (hs : ∃ c ∈ s, c ≠ ' ') :
    rstripSpec s ≠ [] := by
  unfold rstripSpec
  simp only [ne_eq, List.reverse_eq_nil_iff, List.dropWhile_eq_nil_iff]
  intro hall
  rcases hs with ⟨c, hc, hne⟩
  have := hall c (List.mem_reverse.mpr hc)
  simp at this
  exact hne this

theorem isPrefixOf_append_self (l t : List Char) : l.isPrefixOf (l ++ t) = true := by
  induction l with
  | nil => simp [List.isPrefixOf]
  | cons c cs ih => simpa [List.isPrefixOf] using ih

theorem splitFuel_irrel (sep : List Char) :
    ∀ (f g : Nat) (s : List Char), s.length ≤ f → s.length ≤ g →
      splitFuel sep f s = splitFuel sep g s := by
  intro f
  induction f with
  | zero =>
    intro g s hf _
    have hs : s = [] := List.length_eq_zero.mp (Nat.le_zero.mp hf)
    subst hs
    cases g <;> rfl
  | succ f ih =>
    intro g s hf hg
    cases s with
    | nil => cases g <;> rfl
    | cons c cs =>
      cases g with
      | zero => simp at hg
      | succ g' =>
        simp only [splitFuel]
        by_cases hcond : sep ≠ [] ∧ sep.isPrefixOf (c :: cs)
        · rw [if_pos hcond, if_pos hcond]
          have hlen : ((c :: cs).drop sep.length).length ≤ f := by
            have h1 : 0 < sep.length := List.length_pos.mpr hcond.1
            simp only [List.length_drop, List.length_cons]
            simp only [List.length_cons] at hf
            omega
          have hlen' : ((c :: cs).drop sep.length).length ≤ g' := by
            have h1 : 0 < sep.length := List.length_pos.mpr hcond.1
            simp only [List.length_drop, List.length_cons]
            simp only [List.length_cons] at hg
            omega
          rw [ih g' _ hlen hlen']
        · rw [if_neg hcond, if_neg hcond]
          have hlen : cs.length ≤ f := by
            simp only [List.length_cons] at hf; omega
          have hlen' : cs.length ≤ g' := by
            simp only [List.length_cons] at hg; omega
          rw [ih g' cs hlen hlen']

theorem pySplit_no_occur (sep s : List Char) (hsep : sep ≠ [])
    (hno : pySub sep s = false) : pySplit sep s = [s] := by
  induction s with
  | nil => rfl
  | cons c cs ih =>
    have hno' : sep.isPrefixOf (c :: cs) = false ∧ pySub sep cs = false := by
      simpa [pySub, Bool.or_eq_false_iff] using hno
    show splitFuel sep (cs.length + 1) (c :: cs) = [c :: cs]
    simp only [splitFuel]
    rw [if_neg (by simp [hno'.1])]
    rw [show splitFuel sep cs.length cs = pySplit sep cs from rfl, ih hno'.2]

theorem pySplit_first (sep pre post : List Char) (hsep : sep ≠ [])
    (hpre : ∀ i, i < pre.length →
      sep.isPrefixOf ((pre ++ sep ++ post).drop i) = false) :
    pySplit sep (pre ++ sep ++ post) = pre :: pySplit sep post := by
  induction pre with
  | nil =>
    rcases sep with _ | ⟨a, as⟩
    · exact absurd rfl hsep
    · show splitFuel (a :: as) ((as ++ post).length + 1)
        (a :: (as ++ post)) = [] :: pySplit (a :: as) post
      simp only [splitFuel]
      rw [if_pos ⟨hsep, by
        simpa using isPrefixOf_append_self (a :: as) post⟩]
      congr 1
      have hdrop : (a :: (as ++ post)).drop (a :: as).length = post := by
        simpa using List.drop_left (a :: as) post
      rw [hdrop]
      exact splitFuel_irrel (a :: as) (as ++ post).length post.length post
        (by simp) (le_refl _)
  | cons c pre' ih =>
    have h0 : sep.isPrefixOf (c :: (pre' ++ sep ++ post)) = false := by
      simpa using hpre 0 (by simp)
    show splitFuel sep ((pre' ++ sep ++ post).length + 1)
        (c :: (pre' ++ sep ++ post)) = (c :: pre') :: pySplit sep post
    simp only [splitFuel]
    rw [if_neg (fun hand => absurd hand.2 (by rw [h0]; simp))]
    have hrec : splitFuel sep (pre' ++ sep ++ post).length (pre' ++ sep ++ post) =
        pre' :: pySplit sep post := by
      have := ih (fun i hi => by
        have := hpre (i + 1) (by simpa using Nat.succ_lt_succ hi)
        simpa [List.drop_succ_cons] using this)
      exact this
    rw [hrec]

theorem musicPart_no_txt (outs : List Char) (env : RenderEnv) :
    ∀ e ∈ (musicPart outs env).1, ∀ cont,
      e ≠ Effect.fileWrite "ocr_output.txt" cont := by
  unfold musicPart
  split
  · split
    · simp
    · intro e he cont
      simp only [List.mem_singleton] at he
      subst he
      simp
  · simp

theorem formatPart_no_txt (tt : String) (outs : List Char) (env : RenderEnv) :
    ∀ e ∈ (formatPart tt outs env).1, ∀ cont,
      e ≠ Effect.fileWrite "ocr_output.txt" cont := by
  unfold formatPart
  split
  · split
    · split
      · simp
      · split
        · simp
        · intro e he cont
          simp only [List.mem_singleton] at he
          subst he
          simp
    · split
      · simp
      · split
        · simp
        · split
          · simp
          · intro e he cont
            simp only [List.mem_singleton] at he
            subst he
            simp
  · simp

theorem renderStep_no_txt (tt : String) (outs : List Char) (env : RenderEnv) :
    ∀ e ∈ (renderStep tt outs env).1, ∀ cont,
      e ≠ Effect.fileWrite "ocr_output.txt" cont := by
  intro e he cont
  unfold renderStep at he
  simp only at he
  split at he
  · rcases List.mem_cons.mp he with rfl | he'
    · simp
    · exact musicPart_no_txt outs env e he' cont
  · rcases List.mem_cons.mp he with rfl | he'
    · simp
    · rcases List.mem_append.mp he' with hm | hf
      · exact musicPart_no_txt outs env e hm cont
      · exact formatPart_no_txt tt outs env e hf cont

/-! ## Claims -/

/-- Claim C1, counterexample: with both a box and a color supplied
(`box=[100,100,200,200]`, `color="red"`, 1000x1000 image, task type
`"format"`), the instruction string is the color-prefixed one and the
box prefix `"[100, 100, 200, 200]"` does not occur in it — refuting
the claim that the box prefix wins. -/
theorem C1_counterexample :
    buildQs "format" (some [100, 100, 200, 200]) (some "red") 1000 1000 =
      Except.ok "[red] OCR with format: "
    ∧ pySub (S "[100, 100, 200, 200]") (S "[red] OCR with format: ") = false :=
  ⟨rfl, rfl⟩

/-- Claim C1 (amended): for every invocation in which both a box and a
color are supplied (and the image dimensions are non-zero, so the box
normalization does not raise), exactly one prefix is applied to the
instruction string, and it is the color prefix `"[" + color + "] "`;
the box prefix is discarded because the color `if` is checked last and
rebuilds the instruction from the base string. -/
theorem C1_amended (tt : String) (b : List Int) (c : String) (w h : Int)
    (hw : w ≠ 0) (hh : h ≠ 0) :
    buildQs tt (some b) (some c) w h =
      Except.ok ("[" ++ c ++ "] " ++ baseInstr tt) := by
  obtain ⟨nb, hnb⟩ := normalizeBox_exists_ok b w h hw hh
  simp [buildQs, hnb]

theorem C1_amended_witness :
    buildQs "format" (some [7, 8]) (some "blue") 50 60 =
      Except.ok ("[" ++ "blue" ++ "] " ++ baseInstr "format") :=
  C1_amended "format" [7, 8] "blue" 50 60 (by decide) (by decide)

/-- Claim C2, counterexample: the non-empty, non-structural line
`"ab"` (no trailing spaces, does not end with `";"`) is processed to
`"a;\n"`, not to the claimed `"ab;\n"` — the `gt += out[:-1] + ";\n"`
branch deletes the last content character.  Moreover the line `"a;x"`
is processed to `"a;;\n"`, which ends with `";;"`. -/
theorem C2_counterexample :
    processTikzLine (S "ab") = Except.ok (S "a;\n")
    ∧ S "a;\n" ≠ S "ab;\n"
    ∧ processTikzLine (S "a;x") = Except.ok (S "a;;\n") :=
  ⟨rfl, by decide, rfl⟩

/-- Claim C2 (amended): for every non-empty input line containing some
non-space character and neither tikzpicture marker, the processed
output is: the trailing-space-stripped content followed by one newline
when that content already ends with `";"`; otherwise the stripped
content with its final character removed, followed by `";"` and a
newline (so appending `";"` overwrites the last character, and the
output line can end with `";;"`). -/
theorem C2_amended (line : List Char)
    (hne : line ≠ [])
    (hsp : ∃ c ∈ line, c ≠ ' ')
    (hb : pySub tikzBeginL line = false)
    (he : pySub tikzEndL line = false) :
    processTikzLine line =
      Except.ok (if (rstripSpec line).getLast? = some ';'
        then rstripSpec line ++ S "\n"
        else (rstripSpec line).dropLast ++ S ";\n") := by
  unfold processTikzLine
  rw [if_neg hne, if_pos ⟨hb, he⟩, stripTrailLoop_ok line hsp]
  simp only
  rw [if_neg (rstripSpec_ne_nil line hsp)]
  by_cases hl : (rstripSpec line).getLast? = some ';'
  · rw [if_neg (by simp [hl]), if_pos hl]
  · rw [if_pos hl, if_neg hl]

theorem C2_amended_witness :
    (∃ c ∈ S "ab ", c ≠ ' ')
    ∧ processTikzLine (S "ab ") =
      Except.ok (if (rstripSpec (S "ab ")).getLast? = some ';'
        then rstripSpec (S "ab ") ++ S "\n"
        else (rstripSpec (S "ab ")).dropLast ++ S ";\n") :=
  ⟨by decide, C2_amended (S "ab ") (by decide) (by decide) (by decide) (by decide)⟩

/-- Claim C3: evaluating the diagram line loop at a line of three
spaces.  The line is non-empty and non-structural, so it enters the
trailing-space `while` loop; the loop empties the string and then
re-evaluates `out[-1]`, raising `IndexError` — the `if out is None`
guard never fires because a sliced-empty Python string is `""`, not
`None`.  The claim (and the guard's evident intent) says this must
terminate with an empty result instead of raising. -/
theorem C3_space_line_raises :
    processTikzLine (S "   ") = Except.error PyErr.indexError := rfl

/-- Claim C4, counterexample: a box of length 3 is passed through with
no error of any kind (refuting "fails with InvalidInput"), and a zero
width with a length-2 box fails with `ZeroDivisionError`, not an
InvalidInput error. -/
theorem C4_counterexample :
    normalizeBox [1, 2, 3] 10 10 = Except.ok [1, 2, 3]
    ∧ normalizeBox [1, 2] 0 10 = Except.error PyErr.zeroDivisionError :=
  ⟨rfl, rfl⟩

/-- Claim C4 (amended): for every box whose parsed sequence has a
length other than 2 or 4, the Coordinate Normalizer silently returns
the sequence unchanged with no error; and for every 2- or 4-element
box, a zero image width or height makes it fail with a
`ZeroDivisionError` (not an InvalidInput error). -/
theorem C4_amended :
    (∀ (b : List Int) (w h : Int), b.length ≠ 2 → b.length ≠ 4 →
      normalizeBox b w h = Except.ok b)
    ∧ (∀ (b : List Int) (w h : Int), (b.length = 2 ∨ b.length = 4) →
      (w = 0 ∨ h = 0) → normalizeBox b w h = Except.error PyErr.zeroDivisionError) := by
  constructor
  · exact fun b w h h2 h4 => normalizeBox_other b w h h2 h4
  · intro b w h hlen hz
    rcases hlen with hl | hl
    · obtain ⟨x, y, rfl⟩ : ∃ x y, b = [x, y] := by
        rcases b with _ | ⟨x, _ | ⟨y, _ | ⟨z, t⟩⟩⟩
        · simp at hl
        · simp at hl
        · exact ⟨x, y, rfl⟩
        · simp at hl
      rcases hz with rfl | rfl
      · simp [normalizeBox, scaleCoord]
      · by_cases hw : w = 0 <;> simp [normalizeBox, scaleCoord, hw]
    · obtain ⟨x1, y1, x2, y2, rfl⟩ : ∃ x1 y1 x2 y2, b = [x1, y1, x2, y2] := by
        rcases b with _ | ⟨x1, _ | ⟨y1, _ | ⟨x2, _ | ⟨y2, _ | ⟨z, t⟩⟩⟩⟩⟩
        · simp at hl
        · simp at hl
        · simp at hl
        · simp at hl
        · exact ⟨x1, y1, x2, y2, rfl⟩
        · simp at hl
      rcases hz with rfl | rfl
      · simp [normalizeBox, scaleCoord]
      · by_cases hw : w = 0 <;> simp [normalizeBox, scaleCoord, hw]

theorem C4_amended_witness :
    normalizeBox [1, 2, 3] 5 7 = Except.ok [1, 2, 3]
    ∧ normalizeBox [3, 4] 0 7 = Except.error PyErr.zeroDivisionError :=
  ⟨C4_amended.1 [1, 2, 3] 5 7 (by decide) (by decide),
   C4_amended.2 [3, 4] 0 7 (Or.inl rfl) (Or.inl rfl)⟩

/-- Claim C5: for every box of 2 or 4 integer pixel coordinates within
the image bounds (x-coordinates, at even indices, bounded by the
width; y-coordinates, at odd indices, bounded by the height; both
dimensions positive), normalization succeeds, preserves the length,
and every produced coordinate is an integer in `[0, 1000]`. -/
theorem C5_range (b : List Int) (w h : Int) (hw : 0 < w) (hh : 0 < h)
    (hlen : b.length = 2 ∨ b.length = 4)
    (hbnd : ∀ i, i < b.length →
      0 ≤ b.getD i 0 ∧ b.getD i 0 ≤ (if i % 2 = 0 then w else h)) :
    ∃ nb, normalizeBox b w h = Except.ok nb ∧ nb.length = b.length ∧
      ∀ z ∈ nb, 0 ≤ z ∧ z ≤ 1000 := by
  have hw0 : w ≠ 0 := ne_of_gt hw
  have hh0 : h ≠ 0 := ne_of_gt hh
  rcases hlen with hl | hl
  · obtain ⟨x, y, rfl⟩ : ∃ x y, b = [x, y] := by
      rcases b with _ | ⟨x, _ | ⟨y, _ | ⟨z, t⟩⟩⟩
      · simp at hl
      · simp at hl
      · exact ⟨x, y, rfl⟩
      · simp at hl
    have hx := hbnd 0 (by simp)
    have hy := hbnd 1 (by simp)
    simp only [List.getD_cons_zero, List.getD_cons_succ] at hx hy
    norm_num at hx hy
    refine ⟨[Int.tdiv (x * 1000) w, Int.tdiv (y * 1000) h], ?_, by simp, ?_⟩
    · simp [normalizeBox, scaleCoord, hw0, hh0]
    · intro z hz
      rcases List.mem_cons.mp hz with rfl | hz'
      · exact ⟨tdiv_scale_nonneg x w hw hx.1, tdiv_scale_le x w hw hx.2 hx.1⟩
      · rcases List.mem_singleton.mp hz' with rfl
        exact ⟨tdiv_scale_nonneg y h hh hy.1, tdiv_scale_le y h hh hy.2 hy.1⟩
  · obtain ⟨x1, y1, x2, y2, rfl⟩ : ∃ x1 y1 x2 y2, b = [x1, y1, x2, y2] := by
      rcases b with _ | ⟨x1, _ | ⟨y1, _ | ⟨x2, _ | ⟨y2, _ | ⟨z, t⟩⟩⟩⟩⟩
      · simp at hl
      · simp at hl
      · simp at hl
      · simp at hl
      · exact ⟨x1, y1, x2, y2, rfl⟩
      · simp at hl
    have h1 := hbnd 0 (by simp)
    have h2 := hbnd 1 (by simp)
    have h3 := hbnd 2 (by simp)
    have h4 := hbnd 3 (by simp)
    simp only [List.getD_cons_zero, List.getD_cons_succ] at h1 h2 h3 h4
    norm_num at h1 h2 h3 h4
    refine ⟨[Int.tdiv (x1 * 1000) w, Int.tdiv (y1 * 1000) h,
      Int.tdiv (x2 * 1000) w, Int.tdiv (y2 * 1000) h], ?_, by simp, ?_⟩
    · simp [normalizeBox, scaleCoord, hw0, hh0]
    · intro z hz
      simp only [List.mem_cons, List.not_mem_nil, or_false] at hz
      rcases hz with rfl | rfl | rfl | rfl
      · exact ⟨tdiv_scale_nonneg x1 w hw h1.1, tdiv_scale_le x1 w hw h1.2 h1.1⟩
      · exact ⟨tdiv_scale_nonneg y1 h hh h2.1, tdiv_scale_le y1 h hh h2.2 h2.1⟩
      · exact ⟨tdiv_scale_nonneg x2 w hw h3.1, tdiv_scale_le x2 w hw h3.2 h3.1⟩
      · exact ⟨tdiv_scale_nonneg y2 h hh h4.1, tdiv_scale_le y2 h hh h4.2 h4.1⟩

theorem C5_range_witness :
    ∃ nb, normalizeBox [100, 100, 900, 950] 1000 1000 = Except.ok nb ∧
      nb.length = ([100, 100, 900, 950] : List Int).length ∧
      ∀ z ∈ nb, 0 ≤ z ∧ z ≤ 1000 :=
  C5_range [100, 100, 900, 950] 1000 1000 (by decide) (by decide)
    (Or.inr (by decide)) (by decide)

/-- Claim C6: on every invocation the first effect of the
post-generation trace is the write of the full stop-stripped,
whitespace-trimmed text to the fixed `ocr_output.txt` file, before any
rendering effect; and no later effect (in particular none of the
render branches, whether they complete or abort with an exception)
ever writes to that file again — so a failure inside any renderer
leaves `ocr_output.txt` already containing the complete text. -/
theorem C6_write_first (r : Bool) (tt : String) (decoded stop : List Char)
    (env : RenderEnv) :
    (evalTrace r tt decoded stop env).1.head? =
      some (Effect.fileWrite "ocr_output.txt" (stripStop decoded stop))
    ∧ ∀ e ∈ (evalTrace r tt decoded stop env).1.tail, ∀ cont,
        e ≠ Effect.fileWrite "ocr_output.txt" cont := by
  unfold evalTrace
  cases r with
  | false => simp
  | true =>
    simp only [if_pos]
    constructor
    · rfl
    · intro e he cont
      exact renderStep_no_txt tt (stripStop decoded stop) env e (by simpa using he) cont

theorem C6_write_first_witness :
    (evalTrace true "format" (S "x") (S "q") envDemo).1.head? =
      some (Effect.fileWrite "ocr_output.txt" (stripStop (S "x") (S "q")))
    ∧ Effect.consolePrint (S "==============rendering===============")
        ≠ Effect.fileWrite "ocr_output.txt" [] :=
  ⟨(C6_write_first true "format" (S "x") (S "q") envDemo).1,
   (C6_write_first true "format" (S "x") (S "q") envDemo).2
     (Effect.consolePrint (S "==============rendering===============")) (by decide) []⟩

/-- Claim C7: the delimiter-balance repair is the identity on every
text whose `"\left"` count equals its `"\right"` count (the stripping
is guarded by `right_num != left_num`), and on the unbalanced text
`A\left(x` (counts 1 vs 0) it replaces `"\left("` with `"("`, giving
`A(x`. -/
theorem C7_balance :
    (∀ s : List Char, pyCount (S "\\left") s = pyCount (S "\\right") s →
      balanceRepair s = s)
    ∧ balanceRepair (S "A\\left(x") = S "A(x" := by
  constructor
  · intro s hcnt
    unfold balanceRepair
    rw [if_neg (by omega)]
  · rfl

theorem C7_balance_witness :
    balanceRepair (S "A\\left(x\\right)") = S "A\\left(x\\right)" :=
  C7_balance.1 (S "A\\left(x\\right)") (by decide)

/-- Claim C8, counterexample: splicing text `"G"` into the template
`"A const text =B"` yields `"A GB"` — the tikz branch computes
`lines[0] + gt + lines[1]` and does not re-insert the
`"const text ="` marker, refuting the claim that the written HTML
contains the template text up to and including the marker. -/
theorem C8_counterexample :
    tikzSplice (S "A const text =B") (S "G") = Except.ok (S "A GB")
    ∧ S "A GB" ≠ S "A const text =GB" :=
  ⟨rfl, by decide⟩

/-- Claim C8 (amended): for every template whose first
`"const text ="` occurrence starts right after `pre` and whose
remainder `post` contains no further occurrence, the diagram renderer
writes `pre ++ text ++ post`: the processed text is inserted directly
(raw, not JS-string-escaped) in place of the marker, and — unlike the
structured-markup branch, which re-inserts the marker — the
`"const text ="` marker itself is dropped from the output. -/
theorem C8_amended (pre post g : List Char)
    (hpre : ∀ i, i < pre.length →
      markerL.isPrefixOf ((pre ++ markerL ++ post).drop i) = false)
    (hpost : pySub markerL post = false) :
    tikzSplice (pre ++ markerL ++ post) g = Except.ok (pre ++ g ++ post) := by
  unfold tikzSplice
  rw [pySplit_first markerL pre post (by decide) hpre,
    pySplit_no_occur markerL post (by decide) hpost]

theorem C8_amended_witness :
    tikzSplice (S "A " ++ markerL ++ S "B") (S "G") =
      Except.ok (S "A " ++ S "G" ++ S "B") :=
  C8_amended (S "A ") (S "B") (S "G") (by decide) (by decide)

/-- Claim C9: for box `[100,100,200,200]` on a 1000x1000 image the
normalized box is `[100,100,200,200]`, and with task type `"format"`
the instruction string is exactly
`"[100, 100, 200, 200] OCR with format: "` (so it begins with that
prefix). -/
theorem C9_scenario :
    normalizeBox [100, 100, 200, 200] 1000 1000 = Except.ok [100, 100, 200, 200]
    ∧ buildQs "format" (some [100, 100, 200, 200]) none 1000 1000 =
      Except.ok "[100, 100, 200, 200] OCR with format: " :=
  ⟨rfl, rfl⟩

/-- Claim C10: for every box argument parsing to a list whose length
is neither 2 nor 4, no error is raised and no coordinate is
normalized — the instruction string is the string representation of
the raw pixel-space list, a space, and the base instruction. -/
theorem C10_passthrough (tt : String) (b : List Int) (w h : Int)
    (h2 : b.length ≠ 2) (h4 : b.length ≠ 4) :
    buildQs tt (some b) none w h =
      Except.ok (pyStrIntList b ++ " " ++ baseInstr tt) := by
  simp [buildQs, normalizeBox_other b w h h2 h4]

theorem C10_passthrough_witness :
    buildQs "ocr" (some [1, 2, 3]) none 10 10 =
      Except.ok (pyStrIntList [1, 2, 3] ++ " " ++ baseInstr "ocr") :=
  C10_passthrough "ocr" [1, 2, 3] 10 10 (by decide) (by decide)
